import Mathlib

/-!
# Verification of the alnviz coordinate-stitching and spatial-query engine

Shallow embedding of `src/rust_plot.rs`, `src/sequence_filter.rs` and the
record type of `src/aln_reader.rs` from the `pangenome/alnviz` repository.

Conventions of the embedding:
* Rust `i64` is modelled as `Int` (the code never relies on wrap-around of
  coordinate arithmetic; additions/subtractions of genome coordinates are
  mathematical integer operations in the source's reachable range).
* The Rust cast `x as usize` applied to an `i64` sequence id is the
  bit-reinterpreting cast, i.e. reduction modulo `2^64` (`usizeCast`).
* Rust `Vec<T>` is `List T`; `v[i]` on a reachable (in-bounds) index is
  `List.getD i default` (the source would panic out of bounds; all call
  sites proved about are in bounds, or the source itself guards them).
* `f64` query-rectangle coordinates are modelled as exact rationals `ℚ`;
  the Rust cast `f64 as i64` truncates toward zero, modelled by `truncQ`.
* `anyhow::Result<T>` is `Except String T`.
-/

set_option maxRecDepth 4000

/-- One raw alignment record as delivered by the `.1aln` reader
(`AlnRecord` in `src/aln_reader.rs`; the name/length/diffs fields are not
consulted by `RustPlot::from_file` and are omitted). `reverse` is the raw
`i32` flag, tested by the source as `rec.reverse != 0`. -/
structure AlnRecord where
  query_id : Int
  target_id : Int
  query_start : Int
  query_end : Int
  target_start : Int
  target_end : Int
  reverse : Int
deriving Repr, DecidableEq

/-- The Rust cast `(i : i64) as usize` on a 64-bit platform: reduction
modulo `2^64` (nonnegative in-range values are unchanged). -/
def usizeCast (i : Int) : Nat :=
  (i % (18446744073709551616 : Int)).toNat

/-- One stitched segment in genome-wide coordinates
(`AlignmentSegment` in `src/rust_plot.rs`). -/
structure AlignmentSegment where
  abeg : Int
  aend : Int
  bbeg : Int
  bend : Int
  reverse : Bool
deriving Repr, DecidableEq

/-- The plot value (`RustPlot` in `src/rust_plot.rs`). -/
structure RustPlot where
  query_sequences : List String
  target_sequences : List String
  query_lengths : List Int
  target_lengths : List Int
  query_genome_len : Int
  target_genome_len : Int
  segments : List AlignmentSegment
  query_boundaries : List Int
  target_boundaries : List Int
deriving Repr, DecidableEq

/-- One step of the length-inference loop of `RustPlot::from_file`
(lines 53-67): grow the length vector with zeros so that index `i`
exists, then set entry `i` to `max(current, e)`. -/
def updateLen (l : List Int) (i : Nat) (e : Int) : List Int :=
  let l' := if l.length ≤ i then l ++ List.replicate (i + 1 - l.length) 0 else l
  l'.set i (max (l'.getD i 0) e)

/-- The whole record scan of `RustPlot::from_file` lines 53-67: one pass
over the records updating the query- and target-length vectors (the two
vectors are updated independently inside the single Rust loop). -/
def scanLengths (ql tl : List Int) (records : List AlnRecord) : List Int × List Int :=
  records.foldl
    (fun p r =>
      (updateLen p.1 (usizeCast r.query_id) r.query_end,
       updateLen p.2 (usizeCast r.target_id) r.target_end))
    (ql, tl)

/-- Placeholder-name synthesis of `RustPlot::from_file` lines 69-77:
push `"<kind>_<id>"` until the name list is as long as the length list. -/
def padNames (names : List String) (n : Nat) (kind : String) : List String :=
  names ++ (List.range' names.length (n - names.length)).map
    (fun i => kind ++ "_" ++ toString i)

/-- Cumulative scaffold boundaries (`RustPlot::from_file` lines 83-98 and
`with_filters` lines 249-266): prefix sums of the length list starting at
`c`, with the final cumulative total appended. -/
def boundariesOf : List Int → Int → List Int
  | [], c => [c]
  | len :: rest, c => c :: boundariesOf rest (c + len)

/-- The per-record stitching map of `RustPlot::from_file` lines 101-139:
convert one raw record to a genome-wide `AlignmentSegment` using the
scaffold boundary tables and (for reverse records) the target length
table. -/
def stitchRecord (query_boundaries target_boundaries target_lengths : List Int)
    (rec : AlnRecord) : AlignmentSegment :=
  let qid := usizeCast rec.query_id
  let tid := usizeCast rec.target_id
  let query_offset := if qid < query_boundaries.length then query_boundaries.getD qid 0 else 0
  let target_offset := if tid < target_boundaries.length then target_boundaries.getD tid 0 else 0
  let bb :=
    if rec.reverse ≠ 0 then
      let target_seq_len := if tid < target_lengths.length then target_lengths.getD tid 0 else 0
      let target_end_pos := target_offset + target_seq_len
      (target_end_pos - rec.target_start, target_end_pos - rec.target_end)
    else
      (target_offset + rec.target_start, target_offset + rec.target_end)
  { abeg := query_offset + rec.query_start
    aend := query_offset + rec.query_end
    bbeg := bb.1
    bend := bb.2
    reverse := rec.reverse ≠ 0 }

/-- The pure core of `RustPlot::from_file` (lines 38-152): everything the
function does after the external `.1aln` reader has produced the sequence
name lists and the record vector. -/
def RustPlot.fromRecords (qnames tnames : List String) (records : List AlnRecord) : RustPlot :=
  let lens := scanLengths (List.replicate qnames.length 0) (List.replicate tnames.length 0) records
  let query_lengths := lens.1
  let target_lengths := lens.2
  let query_sequences := padNames qnames query_lengths.length "query"
  let target_sequences := padNames tnames target_lengths.length "target"
  let query_genome_len := query_lengths.sum
  let target_genome_len := target_lengths.sum
  let query_boundaries := boundariesOf query_lengths 0
  let target_boundaries := boundariesOf target_lengths 0
  let segments := records.map (stitchRecord query_boundaries target_boundaries target_lengths)
  { query_sequences := query_sequences
    target_sequences := target_sequences
    query_lengths := query_lengths
    target_lengths := target_lengths
    query_genome_len := query_genome_len
    target_genome_len := target_genome_len
    segments := segments
    query_boundaries := query_boundaries
    target_boundaries := target_boundaries }

/-- `RustPlot::get_alen`. -/
def RustPlot.get_alen (p : RustPlot) : Int := p.query_genome_len

/-- `RustPlot::get_blen`. -/
def RustPlot.get_blen (p : RustPlot) : Int := p.target_genome_len

/-- `RustPlot::get_nlays` (always 1 in the source). -/
def RustPlot.get_nlays (_p : RustPlot) : Int := 1

/-- `RustPlot::get_scaffold_boundaries` (genome 0 = query, 1 = target,
anything else = empty). -/
def RustPlot.get_scaffold_boundaries (p : RustPlot) (genome : Int) : List Int :=
  if genome = 0 then p.query_boundaries
  else if genome = 1 then p.target_boundaries
  else []

/-- The Rust cast `(q : f64) as i64`: truncation toward zero. -/
def truncQ (q : ℚ) : Int :=
  if 0 ≤ q then ⌊q⌋ else ⌈q⌉

/-- `RustPlot::query_segments_in_region` (lines 180-207): linear filter of
the segment list by inclusive bounding-box overlap with the truncated
query rectangle.  The `layer` argument is ignored by the source
(`_layer`). -/
def RustPlot.query_segments_in_region (p : RustPlot) (_layer : Int)
    (x y width height : ℚ) : List AlignmentSegment :=
  let x_min := truncQ x
  let x_max := truncQ (x + width)
  let y_min := truncQ y
  let y_max := truncQ (y + height)
  p.segments.filter (fun seg =>
    let seg_x_min := min seg.abeg seg.aend
    let seg_x_max := max seg.abeg seg.aend
    let seg_y_min := min seg.bbeg seg.bend
    let seg_y_max := max seg.bbeg seg.bend
    decide (x_min ≤ seg_x_max) && decide (seg_x_min ≤ x_max) &&
    decide (y_min ≤ seg_y_max) && decide (seg_y_min ≤ y_max))

/-- `SequenceFilter` from `src/sequence_filter.rs`. -/
structure SequenceFilter where
  names : List String
  range : Option (Nat × Nat)
deriving Repr

/-- `SequenceFilter::is_empty`. -/
def SequenceFilter.is_empty (f : SequenceFilter) : Bool :=
  f.names.isEmpty && f.range.isNone

/-- `SequenceFilter::matches`: an empty filter matches everything,
otherwise match by inclusive index range or by exact-name/name-prefix. -/
def SequenceFilter.matches (f : SequenceFilter) (index : Nat) (name : String) : Bool :=
  if f.is_empty then true
  else
    (match f.range with
     | some (s, e) => decide (s ≤ index) && decide (index ≤ e)
     | none => false) ||
    f.names.any (fun fn => name == fn || name.startsWith fn)

/-- `SequenceFilter::matching_indices`: the set of indices whose
(enumerated) name matches.  The Rust `HashSet<usize>` is modelled as the
ascending duplicate-free list of matching indices; the source only uses
its cardinality and membership. -/
def SequenceFilter.matching_indices (f : SequenceFilter) (sequences : List String) : List Nat :=
  (List.range sequences.length).filter (fun i => f.matches i (sequences.getD i ""))

/-- `RustPlot::find_sequence_index` (lines 315-322): first `i` with
`boundaries[i] ≤ coord < boundaries[i+1]`, else `max(len - 2, 0)` with
saturating subtraction. -/
def RustPlot.find_sequence_index (boundaries : List Int) (coord : Int) : Nat :=
  match (List.range (boundaries.length - 1)).find?
      (fun i => decide (boundaries.getD i 0 ≤ coord) &&
                decide (coord < boundaries.getD (i + 1) 0)) with
  | some i => i
  | none => max (boundaries.length - 2) 0

/-- The per-axis re-indexing loop of `RustPlot::with_filters`
(lines 222-247): walk the enumerated sequence list; a retained index gets
the next new index and pushes its name and length; the result is
(new names, new lengths, old-index → optional new index map). -/
def remapAxis (seqs : List String) (lens : List Int) (keep : List Nat) :
    List String × List Int × List (Option Nat) :=
  (List.range seqs.length).foldl
    (fun acc i =>
      if keep.contains i then
        (acc.1 ++ [seqs.getD i ""], acc.2.1 ++ [lens.getD i 0], acc.2.2 ++ [some acc.1.length])
      else
        (acc.1, acc.2.1, acc.2.2 ++ [none]))
    ([], [], [])

/-- The segment filter-and-remap loop of `RustPlot::with_filters`
(lines 268-299). -/
def remapSegments (p : RustPlot)
    (oldToNewQuery oldToNewTarget : List (Option Nat))
    (newQB newTB : List Int) : List AlignmentSegment :=
  p.segments.filterMap (fun seg =>
    let query_idx := RustPlot.find_sequence_index p.query_boundaries seg.abeg
    let target_idx := RustPlot.find_sequence_index p.target_boundaries (min seg.bbeg seg.bend)
    match oldToNewQuery.getD query_idx none, oldToNewTarget.getD target_idx none with
    | some new_qidx, some new_tidx =>
      let q_delta := newQB.getD new_qidx 0 - p.query_boundaries.getD query_idx 0
      let t_delta := newTB.getD new_tidx 0 - p.target_boundaries.getD target_idx 0
      some { abeg := seg.abeg + q_delta
             aend := seg.aend + q_delta
             bbeg := seg.bbeg + t_delta
             bend := seg.bend + t_delta
             reverse := seg.reverse }
    | _, _ => none)

/-- `RustPlot::with_filters` (lines 211-312).  The Rust signature is
`Result<Self>` but every path returns `Ok`; the `Except` layer records
that signature faithfully. -/
def RustPlot.with_filters (p : RustPlot) (query_filter target_filter : SequenceFilter) :
    Except String RustPlot :=
  let query_indices := query_filter.matching_indices p.query_sequences
  let target_indices := target_filter.matching_indices p.target_sequences
  if query_indices.length = p.query_sequences.length ∧
     target_indices.length = p.target_sequences.length then
    Except.ok p
  else
    let q := remapAxis p.query_sequences p.query_lengths query_indices
    let t := remapAxis p.target_sequences p.target_lengths target_indices
    let new_query_boundaries := boundariesOf q.2.1 0
    let new_target_boundaries := boundariesOf t.2.1 0
    Except.ok
      { query_sequences := q.1
        target_sequences := t.1
        query_lengths := q.2.1
        target_lengths := t.2.1
        query_genome_len := q.2.1.sum
        target_genome_len := t.2.1.sum
        segments := remapSegments p q.2.2 t.2.2 new_query_boundaries new_target_boundaries
        query_boundaries := new_query_boundaries
        target_boundaries := new_target_boundaries }

/-! ## Basic lemmas about the embedded operations -/

theorem truncQ_le_ceil (q : ℚ) : truncQ q ≤ ⌈q⌉ := by
  unfold truncQ
  split
  · exact Int.floor_le_ceil q
  · exact le_refl _

theorem floor_le_truncQ (q : ℚ) : ⌊q⌋ ≤ truncQ q := by
  unfold truncQ
  split
  · exact le_refl _
  · exact Int.floor_le_ceil q

theorem fromRecords_segments (qnames tnames : List String) (records : List AlnRecord) :
    (RustPlot.fromRecords qnames tnames records).segments
      = records.map
          (stitchRecord
            (boundariesOf (scanLengths (List.replicate qnames.length 0)
                (List.replicate tnames.length 0) records).1 0)
            (boundariesOf (scanLengths (List.replicate qnames.length 0)
                (List.replicate tnames.length 0) records).2 0)
            (scanLengths (List.replicate qnames.length 0)
                (List.replicate tnames.length 0) records).2) := rfl

/-! ## C1: the stitching contract -/

/-- C1.  Stitching maps a raw record to genome-wide coordinates by the
contract `abeg = offsetA[query_id] + query_start`,
`aend = offsetA[query_id] + query_end`; forward records get
`bbeg = offsetB[target_id] + target_start`,
`bend = offsetB[target_id] + target_end`; reverse records get, with
`end_pos = offsetB[target_id] + length(target_id)`,
`bbeg = end_pos - target_start` and `bend = end_pos - target_end`;
the stored flag is `reverse ≠ 0`. -/
theorem C1_stitch_contract (query_boundaries target_boundaries target_lengths : List Int)
    (rec : AlnRecord)
    (hq : usizeCast rec.query_id < query_boundaries.length)
    (ht : usizeCast rec.target_id < target_boundaries.length)
    (htl : usizeCast rec.target_id < target_lengths.length) :
    (stitchRecord query_boundaries target_boundaries target_lengths rec).abeg
        = query_boundaries.getD (usizeCast rec.query_id) 0 + rec.query_start ∧
    (stitchRecord query_boundaries target_boundaries target_lengths rec).aend
        = query_boundaries.getD (usizeCast rec.query_id) 0 + rec.query_end ∧
    ((stitchRecord query_boundaries target_boundaries target_lengths rec).reverse = true
        ↔ rec.reverse ≠ 0) ∧
    (rec.reverse = 0 →
      (stitchRecord query_boundaries target_boundaries target_lengths rec).bbeg
          = target_boundaries.getD (usizeCast rec.target_id) 0 + rec.target_start ∧
      (stitchRecord query_boundaries target_boundaries target_lengths rec).bend
          = target_boundaries.getD (usizeCast rec.target_id) 0 + rec.target_end) ∧
    (rec.reverse ≠ 0 →
      (stitchRecord query_boundaries target_boundaries target_lengths rec).bbeg
          = (target_boundaries.getD (usizeCast rec.target_id) 0
              + target_lengths.getD (usizeCast rec.target_id) 0) - rec.target_start ∧
      (stitchRecord query_boundaries target_boundaries target_lengths rec).bend
          = (target_boundaries.getD (usizeCast rec.target_id) 0
              + target_lengths.getD (usizeCast rec.target_id) 0) - rec.target_end) := by
  unfold stitchRecord
  by_cases hr : rec.reverse = 0 <;>
    simp [hr, if_pos hq, if_pos ht, if_pos htl]

/-- Witness for C1 at Scenario B of the spec: genomes with a single
length-1000 sequence each (boundary tables `[0,1000]`), reverse record
`(0,0,100,200,300,400,true)` stitches to `(100,200,700,600,true)`. -/
theorem C1_stitch_contract_witness :
    (stitchRecord [0, 1000] [0, 1000] [1000] ⟨0, 0, 100, 200, 300, 400, 1⟩).abeg = 100 ∧
    (stitchRecord [0, 1000] [0, 1000] [1000] ⟨0, 0, 100, 200, 300, 400, 1⟩).aend = 200 ∧
    (stitchRecord [0, 1000] [0, 1000] [1000] ⟨0, 0, 100, 200, 300, 400, 1⟩).bbeg = 700 ∧
    (stitchRecord [0, 1000] [0, 1000] [1000] ⟨0, 0, 100, 200, 300, 400, 1⟩).bend = 600 ∧
    (stitchRecord [0, 1000] [0, 1000] [1000] ⟨0, 0, 100, 200, 300, 400, 1⟩).reverse = true := by
  have h := C1_stitch_contract [0, 1000] [0, 1000] [1000] ⟨0, 0, 100, 200, 300, 400, 1⟩
    (by decide) (by decide) (by decide)
  obtain ⟨h1, h2, h3, -, h5⟩ := h
  have hb := h5 (by decide)
  refine ⟨?_, ?_, ?_, ?_, ?_⟩
  · rw [h1]; decide
  · rw [h2]; decide
  · rw [hb.1]; decide
  · rw [hb.2]; decide
  · rw [h3]; decide

/-! ## C2: the slope-sign invariant -/

/-- C2 counterexample.  The degenerate reverse record `(0,0,5,3,7,7,1)`
(query interval reversed, zero-length target interval) stitches to the
segment `(5,3,0,0,true)`, violating both `abeg ≤ aend` and
`reverse = true ↔ bbeg > bend`. -/
theorem C2_counterexample :
    ¬ (∀ seg ∈ (RustPlot.fromRecords [] [] [⟨0, 0, 5, 3, 7, 7, 1⟩]).segments,
        seg.abeg ≤ seg.aend ∧ (seg.reverse = true ↔ seg.bend < seg.bbeg)) := by
  decide

/-- C2 amended: for records with `query_start ≤ query_end`,
`target_start ≤ target_end`, and strictly `target_start < target_end`
when the record is reverse, every stitched segment satisfies
`abeg ≤ aend`, `reverse = true ↔ bbeg > bend`, and
`reverse = false ↔ bbeg ≤ bend` (equal B endpoints only arise forward). -/
theorem C2_amended (qnames tnames : List String) (records : List AlnRecord)
    (hwf : ∀ r ∈ records, r.query_start ≤ r.query_end ∧ r.target_start ≤ r.target_end ∧
            (r.reverse ≠ 0 → r.target_start < r.target_end)) :
    ∀ seg ∈ (RustPlot.fromRecords qnames tnames records).segments,
      seg.abeg ≤ seg.aend ∧ (seg.reverse = true ↔ seg.bend < seg.bbeg) ∧
      (seg.reverse = false ↔ seg.bbeg ≤ seg.bend) := by
  intro seg hseg
  rw [fromRecords_segments] at hseg
  rw [List.mem_map] at hseg
  obtain ⟨r, hr, rfl⟩ := hseg
  obtain ⟨h1, h2, h3⟩ := hwf r hr
  unfold stitchRecord
  by_cases hrev : r.reverse = 0
  · refine ⟨by simp [hrev]; omega, ?_, ?_⟩
    · simp [hrev]
      omega
    · simp [hrev]
      omega
  · have h3' := h3 hrev
    refine ⟨by simp [hrev]; omega, ?_, ?_⟩
    · simp [hrev]
      omega
    · simp [hrev]
      omega

/-- Witness for C2 amended at Scenario A of the spec. -/
theorem C2_amended_witness :
    (⟨100, 200, 300, 400, false⟩ : AlignmentSegment).abeg
        ≤ (⟨100, 200, 300, 400, false⟩ : AlignmentSegment).aend ∧
    ((⟨100, 200, 300, 400, false⟩ : AlignmentSegment).reverse = true
        ↔ (⟨100, 200, 300, 400, false⟩ : AlignmentSegment).bend
            < (⟨100, 200, 300, 400, false⟩ : AlignmentSegment).bbeg) ∧
    ((⟨100, 200, 300, 400, false⟩ : AlignmentSegment).reverse = false
        ↔ (⟨100, 200, 300, 400, false⟩ : AlignmentSegment).bbeg
            ≤ (⟨100, 200, 300, 400, false⟩ : AlignmentSegment).bend) :=
  C2_amended [] [] [⟨0, 0, 100, 200, 300, 400, 0⟩] (by decide)
    ⟨100, 200, 300, 400, false⟩ (by decide)

/-! ## C10: single layer, layer argument ignored -/

/-- C10.  Every plot reports exactly one layer, and the region query
returns the same result for every value of its layer argument. -/
theorem C10_single_layer :
    ∀ (p : RustPlot) (l1 l2 : Int) (x y w h : ℚ),
      p.get_nlays = 1 ∧
      p.query_segments_in_region l1 x y w h = p.query_segments_in_region l2 x y w h :=
  fun _ _ _ _ _ _ _ => ⟨rfl, rfl⟩

/-! ## Length-inference lemmas (the record scan of `from_file`) -/

theorem updateLen_length (l : List Int) (i : Nat) (e : Int) :
    (updateLen l i e).length = max l.length (i + 1) := by
  simp only [updateLen]
  split <;> simp_all <;> omega

theorem scanLengths_nil (ql tl : List Int) : scanLengths ql tl [] = (ql, tl) := rfl

theorem scanLengths_cons (ql tl : List Int) (r : AlnRecord) (rest : List AlnRecord) :
    scanLengths ql tl (r :: rest)
      = scanLengths (updateLen ql (usizeCast r.query_id) r.query_end)
          (updateLen tl (usizeCast r.target_id) r.target_end) rest := rfl

theorem scanLengths_len_le (records : List AlnRecord) :
    ∀ ql tl : List Int,
      ql.length ≤ (scanLengths ql tl records).1.length ∧
      tl.length ≤ (scanLengths ql tl records).2.length := by
  induction records with
  | nil => intro ql tl; exact ⟨le_refl _, le_refl _⟩
  | cons r rest ih =>
    intro ql tl
    rw [scanLengths_cons]
    have h := ih (updateLen ql (usizeCast r.query_id) r.query_end)
                 (updateLen tl (usizeCast r.target_id) r.target_end)
    refine ⟨le_trans ?_ h.1, le_trans ?_ h.2⟩ <;> rw [updateLen_length] <;> omega

theorem scanLengths_covers (records : List AlnRecord) :
    ∀ ql tl : List Int, ∀ r ∈ records,
      usizeCast r.query_id < (scanLengths ql tl records).1.length ∧
      usizeCast r.target_id < (scanLengths ql tl records).2.length := by
  induction records with
  | nil => intro ql tl r hr; cases hr
  | cons r0 rest ih =>
    intro ql tl r hr
    rw [scanLengths_cons]
    rcases List.mem_cons.mp hr with h | h
    · subst h
      have hle := scanLengths_len_le rest (updateLen ql (usizeCast r.query_id) r.query_end)
        (updateLen tl (usizeCast r.target_id) r.target_end)
      constructor
      · exact lt_of_lt_of_le (by rw [updateLen_length]; omega) hle.1
      · exact lt_of_lt_of_le (by rw [updateLen_length]; omega) hle.2
    · exact ih _ _ r h

/-! ## C7: no record validation, tables grow instead -/

/-- C7 counterexample.  The record `(0, 5, -3, 4, 0, 7, false)` has a
negative `query_start` and a `target_id` beyond the one-sequence offset
table; `from_file` raises no error, grows the target tables to six
sequences and stitches the record into the plot (with a negative `abeg`),
rather than dropping it. -/
theorem C7_counterexample :
    (RustPlot.fromRecords ["q0"] ["t0"] [⟨0, 5, -3, 4, 0, 7, 0⟩]).segments
        = [⟨-3, 4, 0, 7, false⟩] ∧
    (RustPlot.fromRecords ["q0"] ["t0"] [⟨0, 5, -3, 4, 0, 7, 0⟩]).target_sequences.length = 6 := by
  constructor
  · decide
  · decide

/-- C7 amended: plot construction performs no record validation and
produces no `InvalidRecord`/`OutOfRange` errors; every record is stitched
into exactly one segment, and ids beyond the initial offset tables are
accommodated by growing the per-sequence length tables to cover them. -/
theorem C7_amended (qnames tnames : List String) (records : List AlnRecord) :
    (RustPlot.fromRecords qnames tnames records).segments.length = records.length ∧
    ∀ r ∈ records,
      usizeCast r.query_id < (RustPlot.fromRecords qnames tnames records).query_lengths.length ∧
      usizeCast r.target_id < (RustPlot.fromRecords qnames tnames records).target_lengths.length := by
  constructor
  · rw [fromRecords_segments, List.length_map]
  · intro r hr
    exact scanLengths_covers records _ _ r hr

/-- Witness for C7 amended at the C7 counterexample input. -/
theorem C7_amended_witness :
    (RustPlot.fromRecords ["q0"] ["t0"] [⟨0, 5, -3, 4, 0, 7, 0⟩]).segments.length = 1 ∧
    usizeCast (5 : Int)
      < (RustPlot.fromRecords ["q0"] ["t0"] [⟨0, 5, -3, 4, 0, 7, 0⟩]).target_lengths.length :=
  ⟨(C7_amended ["q0"] ["t0"] [⟨0, 5, -3, 4, 0, 7, 0⟩]).1,
   ((C7_amended ["q0"] ["t0"] [⟨0, 5, -3, 4, 0, 7, 0⟩]).2 ⟨0, 5, -3, 4, 0, 7, 0⟩ (by decide)).2⟩

/-! ## Scaffold-boundary lemmas -/

theorem boundariesOf_length (L : List Int) (c : Int) :
    (boundariesOf L c).length = L.length + 1 := by
  induction L generalizing c with
  | nil => rfl
  | cons a L ih => simp [boundariesOf, ih]

theorem boundariesOf_getD (L : List Int) (c : Int) (i : Nat) (h : i ≤ L.length) :
    (boundariesOf L c).getD i 0 = c + (L.take i).sum := by
  induction L generalizing c i with
  | nil =>
    have hz : i = 0 := by simpa using h
    subst hz
    simp [boundariesOf]
  | cons a L ih =>
    cases i with
    | zero => simp [boundariesOf]
    | succ i =>
      have hi : i ≤ L.length := by simpa using h
      rw [boundariesOf, List.getD_cons_succ, ih (c + a) i hi, List.take_succ_cons,
        List.sum_cons]
      ring

theorem boundariesOf_head (L : List Int) (c : Int) :
    (boundariesOf L c).head? = some c := by
  cases L <;> rfl

theorem boundariesOf_chain (L : List Int) (c : Int) (h : ∀ x ∈ L, 0 ≤ x) :
    List.Chain' (· ≤ ·) (boundariesOf L c) := by
  induction L generalizing c with
  | nil => simp [boundariesOf]
  | cons a L ih =>
    rw [boundariesOf]
    refine List.chain'_cons'.mpr ⟨?_, ih (c + a) (fun x hx => h x (List.mem_cons_of_mem a hx))⟩
    intro y hy
    rw [boundariesOf_head] at hy
    cases hy
    have ha : 0 ≤ a := h a (List.mem_cons_self a L)
    omega

theorem boundariesOf_getLast (L : List Int) (c : Int) :
    (boundariesOf L c).getLast? = some (c + L.sum) := by
  induction L generalizing c with
  | nil => simp [boundariesOf]
  | cons a L ih =>
    rw [boundariesOf]
    cases L with
    | nil => simp [boundariesOf]
    | cons b M =>
      rw [boundariesOf, List.getLast?_cons_cons, ← boundariesOf, ih (c + a)]
      simp
      ring

/-! ## Nonnegativity of the inferred lengths -/

theorem updateLen_nonneg (l : List Int) (i : Nat) (e : Int) (h : ∀ x ∈ l, 0 ≤ x) :
    ∀ x ∈ updateLen l i e, 0 ≤ x := by
  intro x hx
  simp only [updateLen] at hx
  set l' : List Int := if l.length ≤ i then l ++ List.replicate (i + 1 - l.length) 0 else l
    with hl'
  have hmem : ∀ y ∈ l', 0 ≤ y := by
    intro y hy
    rw [hl'] at hy
    split at hy
    · rcases List.mem_append.mp hy with h2 | h2
      · exact h y h2
      · rw [List.eq_of_mem_replicate h2]
    · exact h y hy
  rcases List.mem_or_eq_of_mem_set hx with h1 | h1
  · exact hmem x h1
  · subst h1
    refine le_max_of_le_left ?_
    by_cases hi : i < l'.length
    · rw [List.getD_eq_getElem l' 0 hi]
      exact hmem _ (List.getElem_mem hi)
    · rw [List.getD_eq_default l' 0 (by omega)]

theorem scanLengths_nonneg (records : List AlnRecord) :
    ∀ ql tl : List Int, (∀ x ∈ ql, 0 ≤ x) → (∀ x ∈ tl, 0 ≤ x) →
      (∀ x ∈ (scanLengths ql tl records).1, 0 ≤ x) ∧
      (∀ x ∈ (scanLengths ql tl records).2, 0 ≤ x) := by
  induction records with
  | nil => intro ql tl hq ht; exact ⟨hq, ht⟩
  | cons r rest ih =>
    intro ql tl hq ht
    rw [scanLengths_cons]
    exact ih _ _ (updateLen_nonneg _ _ _ hq) (updateLen_nonneg _ _ _ ht)

theorem padNames_length (names : List String) (n : Nat) (kind : String)
    (h : names.length ≤ n) : (padNames names n kind).length = n := by
  simp [padNames]
  omega

/-! ## C3: boundary tables are prefix sums -/

theorem fromRecords_query_lengths_nonneg (qnames tnames : List String)
    (records : List AlnRecord) :
    (∀ x ∈ (RustPlot.fromRecords qnames tnames records).query_lengths, 0 ≤ x) ∧
    (∀ x ∈ (RustPlot.fromRecords qnames tnames records).target_lengths, 0 ≤ x) := by
  refine scanLengths_nonneg records _ _ ?_ ?_ <;>
    · intro x hx
      rw [List.eq_of_mem_replicate hx]

theorem fromRecords_sequences_length (qnames tnames : List String)
    (records : List AlnRecord) :
    (RustPlot.fromRecords qnames tnames records).query_sequences.length
        = (RustPlot.fromRecords qnames tnames records).query_lengths.length ∧
    (RustPlot.fromRecords qnames tnames records).target_sequences.length
        = (RustPlot.fromRecords qnames tnames records).target_lengths.length := by
  have h := scanLengths_len_le records
    (List.replicate qnames.length 0) (List.replicate tnames.length 0)
  simp only [List.length_replicate] at h
  exact ⟨padNames_length _ _ _ h.1, padNames_length _ _ _ h.2⟩

/-- C3.  Both scaffold-boundary tables of a constructed plot are the
prefix sums of the sequence-length tables (entry `i` is the genome-wide
start of sequence `i`), have length `number of sequences + 1`, are
non-decreasing, and end in the total genome length returned by
`get_alen`/`get_blen`. -/
theorem C3_scaffold_boundaries (qnames tnames : List String) (records : List AlnRecord) :
    ((RustPlot.fromRecords qnames tnames records).get_scaffold_boundaries 0).length
        = (RustPlot.fromRecords qnames tnames records).query_sequences.length + 1 ∧
    ((RustPlot.fromRecords qnames tnames records).get_scaffold_boundaries 1).length
        = (RustPlot.fromRecords qnames tnames records).target_sequences.length + 1 ∧
    (∀ i, i ≤ (RustPlot.fromRecords qnames tnames records).query_lengths.length →
      ((RustPlot.fromRecords qnames tnames records).get_scaffold_boundaries 0).getD i 0
        = (((RustPlot.fromRecords qnames tnames records).query_lengths.take i).sum)) ∧
    (∀ i, i ≤ (RustPlot.fromRecords qnames tnames records).target_lengths.length →
      ((RustPlot.fromRecords qnames tnames records).get_scaffold_boundaries 1).getD i 0
        = (((RustPlot.fromRecords qnames tnames records).target_lengths.take i).sum)) ∧
    List.Chain' (· ≤ ·)
      ((RustPlot.fromRecords qnames tnames records).get_scaffold_boundaries 0) ∧
    List.Chain' (· ≤ ·)
      ((RustPlot.fromRecords qnames tnames records).get_scaffold_boundaries 1) ∧
    ((RustPlot.fromRecords qnames tnames records).get_scaffold_boundaries 0).getLast?
        = some (RustPlot.fromRecords qnames tnames records).get_alen ∧
    ((RustPlot.fromRecords qnames tnames records).get_scaffold_boundaries 1).getLast?
        = some (RustPlot.fromRecords qnames tnames records).get_blen := by
  have hq0 : (RustPlot.fromRecords qnames tnames records).get_scaffold_boundaries 0
      = boundariesOf (RustPlot.fromRecords qnames tnames records).query_lengths 0 := rfl
  have ht1 : (RustPlot.fromRecords qnames tnames records).get_scaffold_boundaries 1
      = boundariesOf (RustPlot.fromRecords qnames tnames records).target_lengths 0 := rfl
  have hnn := fromRecords_query_lengths_nonneg qnames tnames records
  have hsl := fromRecords_sequences_length qnames tnames records
  refine ⟨?_, ?_, ?_, ?_, ?_, ?_, ?_, ?_⟩
  · rw [hq0, boundariesOf_length, hsl.1]
  · rw [ht1, boundariesOf_length, hsl.2]
  · intro i hi
    rw [hq0, boundariesOf_getD _ 0 i hi, zero_add]
  · intro i hi
    rw [ht1, boundariesOf_getD _ 0 i hi, zero_add]
  · rw [hq0]
    exact boundariesOf_chain _ 0 hnn.1
  · rw [ht1]
    exact boundariesOf_chain _ 0 hnn.2
  · rw [hq0, boundariesOf_getLast, zero_add]
    rfl
  · rw [ht1, boundariesOf_getLast, zero_add]
    rfl

/-- Witness for C3 on a two-record plot: boundary entry 1 of genome A is
the length of sequence 0, and the last entry of each table is the total
genome length. -/
theorem C3_scaffold_boundaries_witness :
    ((RustPlot.fromRecords [] [] [⟨0, 0, 0, 10, 0, 10, 0⟩, ⟨1, 1, 0, 7, 0, 8, 0⟩]).get_scaffold_boundaries 0).getD 1 0
        = (((RustPlot.fromRecords [] [] [⟨0, 0, 0, 10, 0, 10, 0⟩, ⟨1, 1, 0, 7, 0, 8, 0⟩]).query_lengths.take 1).sum) ∧
    ((RustPlot.fromRecords [] [] [⟨0, 0, 0, 10, 0, 10, 0⟩, ⟨1, 1, 0, 7, 0, 8, 0⟩]).get_scaffold_boundaries 1).getLast?
        = some (RustPlot.fromRecords [] [] [⟨0, 0, 0, 10, 0, 10, 0⟩, ⟨1, 1, 0, 7, 0, 8, 0⟩]).get_blen :=
  ⟨(C3_scaffold_boundaries [] [] [⟨0, 0, 0, 10, 0, 10, 0⟩, ⟨1, 1, 0, 7, 0, 8, 0⟩]).2.2.1 1
      (by decide),
   (C3_scaffold_boundaries [] [] [⟨0, 0, 0, 10, 0, 10, 0⟩, ⟨1, 1, 0, 7, 0, 8, 0⟩]).2.2.2.2.2.2.2⟩

/-! ## C4: spatial-query soundness (no false negatives) -/

/-- C4.  If a segment's axis-aligned bounding box overlaps the (exact,
closed) query rectangle `[x, x+w] × [y, y+h]`, the segment is contained
in the result of `query_segments_in_region`: the truncation of the
rectangle to integers only enlarges the inclusive test, so there are no
false negatives. -/
theorem C4_query_soundness (p : RustPlot) (layer : Int) (x y w h : ℚ)
    (seg : AlignmentSegment) (hmem : seg ∈ p.segments)
    (h1 : x ≤ ((max seg.abeg seg.aend : Int) : ℚ))
    (h2 : ((min seg.abeg seg.aend : Int) : ℚ) ≤ x + w)
    (h3 : y ≤ ((max seg.bbeg seg.bend : Int) : ℚ))
    (h4 : ((min seg.bbeg seg.bend : Int) : ℚ) ≤ y + h) :
    seg ∈ p.query_segments_in_region layer x y w h := by
  have e1 : truncQ x ≤ max seg.abeg seg.aend :=
    le_trans (truncQ_le_ceil x) (Int.ceil_le.mpr h1)
  have e2 : min seg.abeg seg.aend ≤ truncQ (x + w) :=
    le_trans (Int.le_floor.mpr h2) (floor_le_truncQ (x + w))
  have e3 : truncQ y ≤ max seg.bbeg seg.bend :=
    le_trans (truncQ_le_ceil y) (Int.ceil_le.mpr h3)
  have e4 : min seg.bbeg seg.bend ≤ truncQ (y + h) :=
    le_trans (Int.le_floor.mpr h4) (floor_le_truncQ (y + h))
  unfold RustPlot.query_segments_in_region
  refine List.mem_filter.mpr ⟨hmem, ?_⟩
  simp only [Bool.and_eq_true, decide_eq_true_eq]
  exact ⟨⟨⟨e1, e2⟩, e3⟩, e4⟩

/-- Witness for C4: the segment `(0,10,0,10)` overlaps the rectangle
`[2,6] × [3,7]` and is returned by the query. -/
theorem C4_query_soundness_witness :
    (⟨0, 10, 0, 10, false⟩ : AlignmentSegment)
      ∈ (RustPlot.fromRecords [] [] [⟨0, 0, 0, 10, 0, 10, 0⟩]).query_segments_in_region 0 2 3 4 4 :=
  C4_query_soundness _ 0 2 3 4 4 _ (by decide)
    (by norm_num) (by norm_num) (by norm_num) (by norm_num)

/-! ## C5: an all-matching filter short-circuits to a copy -/

theorem matching_indices_all (f : SequenceFilter) (seqs : List String)
    (h : ∀ i, i < seqs.length → f.matches i (seqs.getD i "") = true) :
    (f.matching_indices seqs).length = seqs.length := by
  unfold SequenceFilter.matching_indices
  have : (List.range seqs.length).filter (fun i => f.matches i (seqs.getD i ""))
      = List.range seqs.length := by
    apply List.filter_eq_self.mpr
    intro i hi
    exact h i (List.mem_range.mp hi)
  rw [this, List.length_range]

/-- C5.  Filters matching every sequence on both genomes hit the
short-circuit branch of `with_filters`: the result is `Ok` of a
structural copy of the plot (hence identical segments and total
lengths), with no coordinate re-derivation. -/
theorem C5_identity_filter (p : RustPlot) (qf tf : SequenceFilter)
    (hq : ∀ i, i < p.query_sequences.length → qf.matches i (p.query_sequences.getD i "") = true)
    (ht : ∀ i, i < p.target_sequences.length → tf.matches i (p.target_sequences.getD i "") = true) :
    p.with_filters qf tf = Except.ok p := by
  unfold RustPlot.with_filters
  rw [if_pos ⟨matching_indices_all qf _ hq, matching_indices_all tf _ ht⟩]

/-- Witness for C5: the empty filter matches everything, so filtering is
the identity on a concrete one-record plot. -/
theorem C5_identity_filter_witness :
    (RustPlot.fromRecords [] [] [⟨0, 0, 0, 5, 0, 5, 0⟩]).with_filters ⟨[], none⟩ ⟨[], none⟩
      = Except.ok (RustPlot.fromRecords [] [] [⟨0, 0, 0, 5, 0, 5, 0⟩]) :=
  C5_identity_filter _ ⟨[], none⟩ ⟨[], none⟩ (by decide) (by decide)

/-! ## C8: zero-match filters do not error -/

theorem remapAxis_keep_nil (seqs : List String) (lens : List Int) :
    remapAxis seqs lens [] = ([], [], List.replicate seqs.length (none : Option Nat)) := by
  unfold remapAxis
  generalize seqs.length = n
  induction n with
  | zero => rfl
  | succ n ih =>
    rw [List.range_succ, List.foldl_append, ih]
    simp [List.replicate_succ']

theorem getD_replicate_none (n i : Nat) :
    (List.replicate n (none : Option Nat)).getD i none = none := by
  by_cases hi : i < n
  · rw [List.getD_eq_getElem _ _ (by simpa using hi)]
    simp
  · rw [List.getD_eq_default _ _ (by simpa using hi)]

theorem remapSegments_target_none (p : RustPlot) (mq : List (Option Nat)) (n : Nat)
    (qb tb : List Int) :
    remapSegments p mq (List.replicate n none) qb tb = [] := by
  unfold remapSegments
  apply List.filterMap_eq_nil_iff.mpr
  intro seg _
  simp only [getD_replicate_none]
  cases mq.getD (RustPlot.find_sequence_index p.query_boundaries seg.abeg) none <;> rfl

/-- C8 counterexample.  On a one-sequence-per-genome plot, a target
filter retaining zero sequences (index range 5-9) makes `with_filters`
return `Ok` of a plot with an empty target axis (no sequences, total
length 0, no segments) — there is no `FilterError::NoMatch`; the
function has no error path at all. -/
theorem C8_counterexample :
    (match (RustPlot.fromRecords [] [] [⟨0, 0, 0, 5, 0, 5, 0⟩]).with_filters
        ⟨[], none⟩ ⟨[], some (5, 9)⟩ with
     | Except.ok r => some (r.target_sequences, r.target_lengths, r.target_genome_len, r.segments)
     | Except.error _ => none)
      = some ([], [], 0, []) := by
  decide

/-- C8 amended: a filter pair that retains zero sequences on the target
axis (on a plot that has target sequences) makes `with_filters` succeed
with a plot whose target axis is empty — no error is surfaced. -/
theorem C8_amended (p : RustPlot) (qf tf : SequenceFilter)
    (hzero : tf.matching_indices p.target_sequences = [])
    (hne : p.target_sequences ≠ []) :
    (match p.with_filters qf tf with
     | Except.ok r => some (r.target_sequences, r.target_lengths, r.target_genome_len, r.segments)
     | Except.error _ => none)
      = some ([], [], 0, []) := by
  have hlen : p.target_sequences.length ≠ 0 := by
    simpa using hne
  unfold RustPlot.with_filters
  rw [hzero]
  rw [if_neg (by
    intro hcontra
    exact hlen (by simpa using hcontra.2.symm))]
  rw [remapAxis_keep_nil]
  simp [remapSegments_target_none]

/-- Witness for C8 amended at the C8 counterexample input. -/
theorem C8_amended_witness :
    (match (RustPlot.fromRecords [] [] [⟨0, 0, 0, 5, 0, 5, 0⟩]).with_filters
        ⟨[], none⟩ ⟨[], some (5, 9)⟩ with
     | Except.ok r => some (r.target_sequences, r.target_lengths, r.target_genome_len, r.segments)
     | Except.error _ => none)
      = some ([], [], 0, []) ∧ True :=
  ⟨C8_amended (RustPlot.fromRecords [] [] [⟨0, 0, 0, 5, 0, 5, 0⟩])
      ⟨[], none⟩ ⟨[], some (5, 9)⟩ (by decide) (by decide), trivial⟩

/-! ## C9: degenerate query rectangles are point queries, not empty -/

/-- C9 counterexample.  On a plot with the single segment `(0,10,0,10)`,
the zero-area query rectangle at `(5,5)` with width 0 and height 0
returns that segment (the inclusive bounding-box test treats it as a
point query), not the empty list. -/
theorem C9_counterexample :
    ¬ ((RustPlot.fromRecords [] [] [⟨0, 0, 0, 10, 0, 10, 0⟩]).query_segments_in_region 0 5 5 0 0
        = []) := by
  have hseg : (RustPlot.fromRecords [] [] [⟨0, 0, 0, 10, 0, 10, 0⟩]).segments
      = [⟨0, 10, 0, 10, false⟩] := by decide
  have h5 : truncQ 5 = 5 := by norm_num [truncQ]
  have h50 : truncQ (5 + 0) = 5 := by norm_num [truncQ]
  simp only [RustPlot.query_segments_in_region, hseg, h5, h50]
  decide

/-- C9 amended: the region query never errors (it is a total function),
and a rectangle whose truncated form is disjoint from every segment's
bounding box — in particular any rectangle outside the plotted range —
returns the empty list; but a zero-area rectangle is an inclusive point
query and may return segments. -/
theorem C9_amended (p : RustPlot) (layer : Int) (x y w h : ℚ)
    (hdisj : ∀ seg ∈ p.segments,
        max seg.abeg seg.aend < truncQ x ∨ truncQ (x + w) < min seg.abeg seg.aend ∨
        max seg.bbeg seg.bend < truncQ y ∨ truncQ (y + h) < min seg.bbeg seg.bend) :
    p.query_segments_in_region layer x y w h = [] := by
  unfold RustPlot.query_segments_in_region
  apply List.filter_eq_nil_iff.mpr
  intro seg hseg
  have hd := hdisj seg hseg
  simp only [Bool.and_eq_true, decide_eq_true_eq, not_and, and_imp]
  intro h1 h2 h3
  rcases hd with hd | hd | hd | hd <;> omega

/-- Witness for C9 amended: a rectangle far to the right of the single
segment returns the empty list. -/
theorem C9_amended_witness :
    (RustPlot.fromRecords [] [] [⟨0, 0, 0, 10, 0, 10, 0⟩]).query_segments_in_region 0 100 0 50 50
      = [] :=
  C9_amended (RustPlot.fromRecords [] [] [⟨0, 0, 0, 10, 0, 10, 0⟩]) 0 100 0 50 50 (by
    intro seg hseg
    have hs : (RustPlot.fromRecords [] [] [⟨0, 0, 0, 10, 0, 10, 0⟩]).segments
        = [⟨0, 10, 0, 10, false⟩] := by decide
    rw [hs] at hseg
    have hseg' : seg = ⟨0, 10, 0, 10, false⟩ := by simpa using hseg
    subst hseg'
    left
    have h100 : truncQ 100 = 100 := by norm_num [truncQ]
    rw [h100]
    decide)

/-! ## C6: which segments survive filtering, and how they are remapped -/

/-- The new index assigned by the `with_filters` re-indexing loop to a
retained old index `i`: the number of retained indices before `i`. -/
def rankOf (keep : List Nat) (i : Nat) : Nat :=
  ((List.range i).filter (fun j => keep.contains j)).length

theorem remapAxis_fold_spec (seqs : List String) (lens : List Int) (keep : List Nat) (n : Nat) :
    ((List.range n).foldl
      (fun acc i =>
        if keep.contains i then
          (acc.1 ++ [seqs.getD i ""], acc.2.1 ++ [lens.getD i 0], acc.2.2 ++ [some acc.1.length])
        else
          (acc.1, acc.2.1, acc.2.2 ++ [none]))
      ([], [], [])).1
        = ((List.range n).filter (fun j => keep.contains j)).map (fun i => seqs.getD i "") ∧
    ((List.range n).foldl
      (fun acc i =>
        if keep.contains i then
          (acc.1 ++ [seqs.getD i ""], acc.2.1 ++ [lens.getD i 0], acc.2.2 ++ [some acc.1.length])
        else
          (acc.1, acc.2.1, acc.2.2 ++ [none]))
      ([], [], [])).2.1
        = ((List.range n).filter (fun j => keep.contains j)).map (fun i => lens.getD i 0) ∧
    ((List.range n).foldl
      (fun acc i =>
        if keep.contains i then
          (acc.1 ++ [seqs.getD i ""], acc.2.1 ++ [lens.getD i 0], acc.2.2 ++ [some acc.1.length])
        else
          (acc.1, acc.2.1, acc.2.2 ++ [none]))
      ([], [], [])).2.2.length = n ∧
    ∀ i, ((List.range n).foldl
      (fun acc i =>
        if keep.contains i then
          (acc.1 ++ [seqs.getD i ""], acc.2.1 ++ [lens.getD i 0], acc.2.2 ++ [some acc.1.length])
        else
          (acc.1, acc.2.1, acc.2.2 ++ [none]))
      ([], [], [])).2.2.getD i none
        = if i < n ∧ keep.contains i = true then some (rankOf keep i) else none := by
  induction n with
  | zero =>
    refine ⟨rfl, rfl, rfl, fun i => ?_⟩
    simp
  | succ n ih =>
    obtain ⟨ih1, ih2, ih3, ih4⟩ := ih
    rw [List.range_succ, List.foldl_append, List.foldl_cons, List.foldl_nil]
    by_cases hc : keep.contains n = true
    · rw [if_pos hc]
      have hmem : n ∈ keep := by simpa [List.elem_eq_mem] using hc
      refine ⟨?_, ?_, ?_, ?_⟩
      · rw [ih1, List.filter_append]
        simp [List.filter_cons, hmem]
      · rw [ih2, List.filter_append]
        simp [List.filter_cons, hmem]
      · rw [List.length_append, ih3]
        rfl
      · intro i
        rcases lt_trichotomy i n with hi | hi | hi
        · rw [List.getD_append _ _ _ _ (by rw [ih3]; exact hi), ih4 i]
          refine if_congr ?_ rfl rfl
          constructor
          · rintro ⟨-, h2⟩
            exact ⟨by omega, h2⟩
          · rintro ⟨-, h2⟩
            exact ⟨hi, h2⟩
        · subst hi
          rw [List.getD_append_right _ _ _ _ (le_of_eq ih3), ih3, Nat.sub_self,
            List.getD_cons_zero]
          rw [if_pos ⟨Nat.lt_succ_self i, hc⟩]
          rw [ih1, List.length_map]
          rfl
        · rw [List.getD_eq_default]
          · rw [if_neg ?_]
            rintro ⟨h1, -⟩
            omega
          · rw [List.length_append, ih3]
            simp
            omega
    · rw [if_neg hc]
      have hnmem : n ∉ keep := by simpa [List.elem_eq_mem] using hc
      refine ⟨?_, ?_, ?_, ?_⟩
      · rw [ih1, List.filter_append]
        simp [List.filter_cons, hnmem]
      · rw [ih2, List.filter_append]
        simp [List.filter_cons, hnmem]
      · rw [List.length_append, ih3]
        rfl
      · intro i
        rcases lt_trichotomy i n with hi | hi | hi
        · rw [List.getD_append _ _ _ _ (by rw [ih3]; exact hi), ih4 i]
          refine if_congr ?_ rfl rfl
          constructor
          · rintro ⟨-, h2⟩
            exact ⟨by omega, h2⟩
          · rintro ⟨-, h2⟩
            exact ⟨hi, h2⟩
        · subst hi
          rw [List.getD_append_right _ _ _ _ (le_of_eq ih3), ih3, Nat.sub_self,
            List.getD_cons_zero]
          rw [if_neg ?_]
          rintro ⟨-, h2⟩
          exact hc h2
        · rw [List.getD_eq_default]
          · rw [if_neg ?_]
            rintro ⟨h1, -⟩
            omega
          · rw [List.length_append, ih3]
            simp
            omega

theorem remapAxis_spec (seqs : List String) (lens : List Int) (keep : List Nat) :
    (remapAxis seqs lens keep).1
        = ((List.range seqs.length).filter (fun j => keep.contains j)).map
            (fun i => seqs.getD i "") ∧
    (remapAxis seqs lens keep).2.1
        = ((List.range seqs.length).filter (fun j => keep.contains j)).map
            (fun i => lens.getD i 0) ∧
    (remapAxis seqs lens keep).2.2.length = seqs.length ∧
    ∀ i, (remapAxis seqs lens keep).2.2.getD i none
        = if i < seqs.length ∧ keep.contains i = true then some (rankOf keep i) else none := by
  unfold remapAxis
  exact remapAxis_fold_spec seqs lens keep seqs.length

theorem find_sequence_index_lt (bnd : List Int) (c : Int) (h : 2 ≤ bnd.length) :
    RustPlot.find_sequence_index bnd c < bnd.length - 1 := by
  unfold RustPlot.find_sequence_index
  cases hf : (List.range (bnd.length - 1)).find?
      (fun i => decide (bnd.getD i 0 ≤ c) && decide (c < bnd.getD (i + 1) 0)) with
  | none =>
    simp only [hf]
    omega
  | some i =>
    have hmem := List.mem_of_find?_eq_some hf
    have hlt := List.mem_range.mp hmem
    simp only [hf]
    exact hlt

theorem matching_indices_full (f : SequenceFilter) (seqs : List String)
    (h : (f.matching_indices seqs).length = seqs.length) :
    f.matching_indices seqs = List.range seqs.length :=
  (List.filter_sublist _).eq_of_length (by rw [List.length_range]; exact h)

theorem rankOf_range (n i : Nat) (h : i ≤ n) : rankOf (List.range n) i = i := by
  unfold rankOf
  rw [List.filter_eq_self.mpr, List.length_range]
  intro j hj
  have hj' : j < n := lt_of_lt_of_le (List.mem_range.mp hj) h
  simp [List.elem_eq_mem, List.mem_range, hj']

theorem filterMap_eq_self_of {α : Type} (l : List α) (f : α → Option α)
    (h : ∀ a ∈ l, f a = some a) : l.filterMap f = l := by
  induction l with
  | nil => rfl
  | cons a l ih =>
    simp [List.filterMap_cons, h a (List.mem_cons_self a l),
      ih (fun x hx => h x (List.mem_cons_of_mem a hx))]

theorem find_owner_lt (p : RustPlot)
    (hqb : p.query_boundaries = boundariesOf p.query_lengths 0)
    (htb : p.target_boundaries = boundariesOf p.target_lengths 0)
    (hql : p.query_lengths.length = p.query_sequences.length)
    (htl : p.target_lengths.length = p.target_sequences.length)
    (hqe : p.query_sequences = [] → p.segments = [])
    (hte : p.target_sequences = [] → p.segments = [])
    (seg : AlignmentSegment) (hseg : seg ∈ p.segments) :
    RustPlot.find_sequence_index p.query_boundaries seg.abeg < p.query_sequences.length ∧
    RustPlot.find_sequence_index p.target_boundaries (min seg.bbeg seg.bend)
        < p.target_sequences.length := by
  have hq1 : 1 ≤ p.query_sequences.length := by
    rcases Nat.eq_zero_or_pos p.query_sequences.length with h0 | h
    · exfalso
      rw [hqe (List.length_eq_zero.mp h0)] at hseg
      exact (List.not_mem_nil seg) hseg
    · exact h
  have ht1 : 1 ≤ p.target_sequences.length := by
    rcases Nat.eq_zero_or_pos p.target_sequences.length with h0 | h
    · exfalso
      rw [hte (List.length_eq_zero.mp h0)] at hseg
      exact (List.not_mem_nil seg) hseg
    · exact h
  have hbq : p.query_boundaries.length = p.query_lengths.length + 1 := by
    rw [hqb, boundariesOf_length]
  have hbt : p.target_boundaries.length = p.target_lengths.length + 1 := by
    rw [htb, boundariesOf_length]
  constructor
  · have := find_sequence_index_lt p.query_boundaries seg.abeg (by omega)
    omega
  · have := find_sequence_index_lt p.target_boundaries (min seg.bbeg seg.bend) (by omega)
    omega

/-- C6 counterexample.  On a plot with one query sequence and two target
sequences (lengths 10 and 8) and the reverse segment `(2,4,10,4,true)`,
whose `bbeg = 10` sits in target sequence 1 while `min(bbeg,bend) = 4`
sits in target sequence 0, a filter retaining only target sequence 1
keeps 1 segment, whereas deciding survival by the owner of the B *start*
coordinate `bbeg` (as the claim states) would keep 2: `with_filters`
locates the owning target sequence by `min(bbeg, bend)`, not by `bbeg`. -/
theorem C6_counterexample :
    ¬ ((match (RustPlot.fromRecords [] []
          [⟨0, 0, 0, 5, 0, 10, 0⟩, ⟨0, 1, 0, 5, 0, 8, 0⟩, ⟨0, 0, 2, 4, 0, 6, 1⟩]).with_filters
          ⟨[], none⟩ ⟨[], some (1, 1)⟩ with
        | Except.ok r => some r.segments.length
        | Except.error _ => none)
      = some ((RustPlot.fromRecords [] []
          [⟨0, 0, 0, 5, 0, 10, 0⟩, ⟨0, 1, 0, 5, 0, 8, 0⟩, ⟨0, 0, 2, 4, 0, 6, 1⟩]).segments.filter
            (fun s =>
              (SequenceFilter.matching_indices ⟨[], none⟩
                  (RustPlot.fromRecords [] []
                    [⟨0, 0, 0, 5, 0, 10, 0⟩, ⟨0, 1, 0, 5, 0, 8, 0⟩,
                     ⟨0, 0, 2, 4, 0, 6, 1⟩]).query_sequences).contains
                (RustPlot.find_sequence_index
                  (RustPlot.fromRecords [] []
                    [⟨0, 0, 0, 5, 0, 10, 0⟩, ⟨0, 1, 0, 5, 0, 8, 0⟩,
                     ⟨0, 0, 2, 4, 0, 6, 1⟩]).query_boundaries s.abeg) &&
              (SequenceFilter.matching_indices ⟨[], some (1, 1)⟩
                  (RustPlot.fromRecords [] []
                    [⟨0, 0, 0, 5, 0, 10, 0⟩, ⟨0, 1, 0, 5, 0, 8, 0⟩,
                     ⟨0, 0, 2, 4, 0, 6, 1⟩]).target_sequences).contains
                (RustPlot.find_sequence_index
                  (RustPlot.fromRecords [] []
                    [⟨0, 0, 0, 5, 0, 10, 0⟩, ⟨0, 1, 0, 5, 0, 8, 0⟩,
                     ⟨0, 0, 2, 4, 0, 6, 1⟩]).target_boundaries s.bbeg))).length) := by
  decide

theorem remapSegments_preserves (p : RustPlot) (mq mt : List (Option Nat)) (qb tb : List Int) :
    ∀ s ∈ remapSegments p mq mt qb tb, ∃ s₀ ∈ p.segments,
      s.aend - s.abeg = s₀.aend - s₀.abeg ∧ s.bend - s.bbeg = s₀.bend - s₀.bbeg ∧
      s.reverse = s₀.reverse := by
  intro s hs
  simp only [remapSegments] at hs
  obtain ⟨a, ha, hfa⟩ := List.mem_filterMap.mp hs
  cases hq : mq.getD (RustPlot.find_sequence_index p.query_boundaries a.abeg) none with
  | none =>
    rw [hq] at hfa
    cases ht : mt.getD (RustPlot.find_sequence_index p.target_boundaries (min a.bbeg a.bend)) none <;>
      rw [ht] at hfa <;> cases hfa
  | some nq =>
    rw [hq] at hfa
    cases ht : mt.getD (RustPlot.find_sequence_index p.target_boundaries (min a.bbeg a.bend)) none with
    | none =>
      rw [ht] at hfa
      cases hfa
    | some nt =>
      rw [ht] at hfa
      have hs' := Option.some.inj hfa
      refine ⟨a, ha, ?_, ?_, ?_⟩ <;> rw [← hs'] <;> simp

/-- C6 amended: a segment of the original plot survives `with_filters`
iff both the query sequence owning its A start coordinate `abeg` and the
target sequence owning its *lower* B coordinate `min(bbeg, bend)` (not
the B start `bbeg`: for reverse segments the code locates the owner by
the smaller coordinate) are retained; each survivor is shifted, per
axis, by the delta between the owning sequence's new and old cumulative
offset (the new offset read at the sequence's rank among retained
indices), which preserves endpoint differences — hence slope sign — and
the reverse flag.  Hypotheses: the plot's tables are consistent the way
every constructed plot's are. -/
theorem C6_amended (p : RustPlot) (qf tf : SequenceFilter)
    (hqb : p.query_boundaries = boundariesOf p.query_lengths 0)
    (htb : p.target_boundaries = boundariesOf p.target_lengths 0)
    (hql : p.query_lengths.length = p.query_sequences.length)
    (htl : p.target_lengths.length = p.target_sequences.length)
    (hqe : p.query_sequences = [] → p.segments = [])
    (hte : p.target_sequences = [] → p.segments = []) :
    (match p.with_filters qf tf with
     | Except.ok res =>
        res.segments = p.segments.filterMap (fun seg =>
          if (qf.matching_indices p.query_sequences).contains
                (RustPlot.find_sequence_index p.query_boundaries seg.abeg)
              ∧ (tf.matching_indices p.target_sequences).contains
                (RustPlot.find_sequence_index p.target_boundaries (min seg.bbeg seg.bend)) then
            some { abeg := seg.abeg + (res.query_boundaries.getD
                      (rankOf (qf.matching_indices p.query_sequences)
                        (RustPlot.find_sequence_index p.query_boundaries seg.abeg)) 0
                    - p.query_boundaries.getD
                      (RustPlot.find_sequence_index p.query_boundaries seg.abeg) 0)
                   aend := seg.aend + (res.query_boundaries.getD
                      (rankOf (qf.matching_indices p.query_sequences)
                        (RustPlot.find_sequence_index p.query_boundaries seg.abeg)) 0
                    - p.query_boundaries.getD
                      (RustPlot.find_sequence_index p.query_boundaries seg.abeg) 0)
                   bbeg := seg.bbeg + (res.target_boundaries.getD
                      (rankOf (tf.matching_indices p.target_sequences)
                        (RustPlot.find_sequence_index p.target_boundaries
                          (min seg.bbeg seg.bend))) 0
                    - p.target_boundaries.getD
                      (RustPlot.find_sequence_index p.target_boundaries
                        (min seg.bbeg seg.bend)) 0)
                   bend := seg.bend + (res.target_boundaries.getD
                      (rankOf (tf.matching_indices p.target_sequences)
                        (RustPlot.find_sequence_index p.target_boundaries
                          (min seg.bbeg seg.bend))) 0
                    - p.target_boundaries.getD
                      (RustPlot.find_sequence_index p.target_boundaries
                        (min seg.bbeg seg.bend)) 0)
                   reverse := seg.reverse }
          else none) ∧
        ∀ s ∈ res.segments, ∃ s₀ ∈ p.segments,
          s.aend - s.abeg = s₀.aend - s₀.abeg ∧ s.bend - s.bbeg = s₀.bend - s₀.bbeg ∧
          s.reverse = s₀.reverse
     | Except.error _ => False) := by
  unfold RustPlot.with_filters
  by_cases hsc : (qf.matching_indices p.query_sequences).length = p.query_sequences.length ∧
      (tf.matching_indices p.target_sequences).length = p.target_sequences.length
  · rw [if_pos hsc]
    refine ⟨?_, fun s hs => ⟨s, hs, rfl, rfl, rfl⟩⟩
    symm
    apply filterMap_eq_self_of
    intro seg hseg
    obtain ⟨hqi, hti⟩ := find_owner_lt p hqb htb hql htl hqe hte seg hseg
    have hkq := matching_indices_full qf p.query_sequences hsc.1
    have hkt := matching_indices_full tf p.target_sequences hsc.2
    have hcq : (qf.matching_indices p.query_sequences).contains
        (RustPlot.find_sequence_index p.query_boundaries seg.abeg) = true := by
      rw [hkq]
      simpa [List.elem_eq_mem, List.mem_range] using hqi
    have hct : (tf.matching_indices p.target_sequences).contains
        (RustPlot.find_sequence_index p.target_boundaries (min seg.bbeg seg.bend)) = true := by
      rw [hkt]
      simpa [List.elem_eq_mem, List.mem_range] using hti
    rw [if_pos ⟨hcq, hct⟩]
    rw [hkq, hkt, rankOf_range _ _ (le_of_lt hqi), rankOf_range _ _ (le_of_lt hti)]
    simp
  · rw [if_neg hsc]
    refine ⟨?_, ?_⟩
    · simp only [remapSegments]
      apply List.filterMap_congr
      intro seg hseg
      obtain ⟨hqi, hti⟩ := find_owner_lt p hqb htb hql htl hqe hte seg hseg
      have hq4 := (remapAxis_spec p.query_sequences p.query_lengths
        (qf.matching_indices p.query_sequences)).2.2.2
        (RustPlot.find_sequence_index p.query_boundaries seg.abeg)
      have ht4 := (remapAxis_spec p.target_sequences p.target_lengths
        (tf.matching_indices p.target_sequences)).2.2.2
        (RustPlot.find_sequence_index p.target_boundaries (min seg.bbeg seg.bend))
      simp only [hqi, true_and] at hq4
      simp only [hti, true_and] at ht4
      by_cases hcq : (qf.matching_indices p.query_sequences).contains
          (RustPlot.find_sequence_index p.query_boundaries seg.abeg) = true
      · by_cases hct : (tf.matching_indices p.target_sequences).contains
            (RustPlot.find_sequence_index p.target_boundaries (min seg.bbeg seg.bend)) = true
        · rw [if_pos hcq] at hq4
          rw [if_pos hct] at ht4
          simp only [hq4, ht4]
          rw [if_pos ⟨hcq, hct⟩]
        · rw [if_pos hcq] at hq4
          rw [if_neg hct] at ht4
          simp only [hq4, ht4]
          rw [if_neg (by rintro ⟨-, h2⟩; exact hct h2)]
      · rw [if_neg hcq] at hq4
        simp only [hq4]
        rw [if_neg (by rintro ⟨h1, -⟩; exact hcq h1)]
    · exact remapSegments_preserves p _ _ _ _

/-- Witness for C6 amended: on the C6 plot, the surviving segment
`(0,5,0,8,false)` of the filtered plot preserves the endpoint
differences and the reverse flag of a segment of the original plot. -/
theorem C6_amended_witness :
    ∃ s₀ ∈ (RustPlot.fromRecords [] []
        [⟨0, 0, 0, 5, 0, 10, 0⟩, ⟨0, 1, 0, 5, 0, 8, 0⟩, ⟨0, 0, 2, 4, 0, 6, 1⟩]).segments,
      (⟨0, 5, 0, 8, false⟩ : AlignmentSegment).aend
          - (⟨0, 5, 0, 8, false⟩ : AlignmentSegment).abeg = s₀.aend - s₀.abeg ∧
      (⟨0, 5, 0, 8, false⟩ : AlignmentSegment).bend
          - (⟨0, 5, 0, 8, false⟩ : AlignmentSegment).bbeg = s₀.bend - s₀.bbeg ∧
      (⟨0, 5, 0, 8, false⟩ : AlignmentSegment).reverse = s₀.reverse :=
  (C6_amended (RustPlot.fromRecords [] []
      [⟨0, 0, 0, 5, 0, 10, 0⟩, ⟨0, 1, 0, 5, 0, 8, 0⟩, ⟨0, 0, 2, 4, 0, 6, 1⟩])
    ⟨[], none⟩ ⟨[], some (1, 1)⟩ (by decide) (by decide) (by decide) (by decide)
    (by decide) (by decide)).2 ⟨0, 5, 0, 8, false⟩ (by decide)
